import Mathlib

/-!
Shallow embedding of the sshells utility (src/main.rs), a terminal menu that
lets a user pick a configured shell to launch, with a countdown that launches
a default shell after a fixed grace period.

Modelling choices:
* Path resolution (fn expand_env_vars): the regex percent-word-percent scan of
  Regex::replace_all is embedded as a character-level left-to-right scanner
  producing segments (literal characters and tokens); the expect panic on an
  undefined variable is modelled as the Option value none.
* Instants and Durations are nanosecond counts (Nat); Duration::as_secs is
  division by NANOS_PER_SEC (truncating).
* The cursive UI is modelled as a state (AppState) plus an event-step function:
  the Refresh-driven tick (fn handle_timer_tick), the SelectView on_select and
  on_submit callbacks, and the global quit key.  Process handoff (Sshell::run)
  records the launched entry and ends the process: exit code 0 on a successful
  spawn, a panic otherwise; after the process ends (or s.quit() was called) no
  further event is handled.
* Filesystem existence (Path::exists) and spawn success are abstract Boolean
  predicates on the expanded path string.
-/

/-- ASCII word character: the regex character class of letters, digits and underscore. -/
def isWordChar (c : Char) : Bool := c.isAlphanum || c = '_'

/-- OS environment: a partial map from variable names to values (models env::var,
with none covering the error case that makes the expect in expand_env_vars panic). -/
abbrev Env := String → Option String

/-- A segment of a scanned path string: a literal character, or a percent-delimited
token with the given name (the word characters between the two percent signs). -/
inductive Seg where
  | lit (c : Char)
  | tok (w : List Char)
deriving DecidableEq

/-- Character-level scanner for the leftmost, non-overlapping matches of the
pattern percent word+ percent, exactly as Regex::replace_all finds them.
First argument none: outside a candidate token; some acc: a percent sign has
been read and acc are the word characters read since.  On a failed candidate
the scan resumes right after the opening percent sign, which is faithful to
the regex restart because no match can begin at a word character. -/
def segsAux : Option (List Char) → List Char → List Seg
  | none, [] => []
  | some acc, [] => ('%' :: acc).map Seg.lit
  | none, c :: cs =>
    if c = '%' then segsAux (some []) cs else Seg.lit c :: segsAux none cs
  | some acc, c :: cs =>
    if isWordChar c then segsAux (some (acc ++ [c])) cs
    else if c = '%' then
      if acc.isEmpty then Seg.lit '%' :: segsAux (some []) cs
      else Seg.tok acc :: segsAux none cs
    else (('%' :: acc) ++ [c]).map Seg.lit ++ segsAux none cs

/-- The names of the tokens found in a string, in order of occurrence. -/
def tokensOf (s : List Char) : List (List Char) :=
  (segsAux none s).filterMap (fun sg => match sg with | Seg.tok w => some w | Seg.lit _ => none)

/-- Replace each token segment by the value of its variable; none models the
expect panic when a referenced variable is undefined. -/
def expandSegs (env : Env) : List Seg → Option (List Char)
  | [] => some []
  | Seg.lit c :: rest => (expandSegs env rest).map (fun t => c :: t)
  | Seg.tok w :: rest =>
    match env (String.mk w) with
    | none => none
    | some v => (expandSegs env rest).map (fun t => v.data ++ t)

/-- Model of fn expand_env_vars: substitute every percent-delimited variable
token in the path, aborting (none) as soon as a referenced variable is undefined. -/
def expand_env_vars (env : Env) (s : List Char) : Option (List Char) :=
  expandSegs env (segsAux none s)

/-- The original text a segment was scanned from. -/
def origSeg : Seg → List Char
  | Seg.lit c => [c]
  | Seg.tok w => '%' :: (w ++ ['%'])

/-- The rendered text of a segment under an environment (token replaced by value). -/
def rendSeg (env : Env) : Seg → List Char
  | Seg.lit c => [c]
  | Seg.tok w => ((env (String.mk w)).getD "").data

/-- struct Sshell: one configured shell entry; expanded_path is the resolved path. -/
structure Sshell where
  name : String
  path : String
  args : List String
  expanded_path : String
deriving DecidableEq

/-- struct TimerState; the Instant end_time is a nanosecond count. -/
structure TimerState where
  end_time : Nat
  active : Bool
deriving DecidableEq

/-- Outcome of the hosting process: still running the UI loop, exited with a
code (std::process::exit), or aborted by a panic (an expect failure). -/
inductive ProcOutcome where
  | running
  | exited (code : Nat)
  | panicked
deriving DecidableEq

/-- Runtime state of the UI: the shared timer, the SelectView items as pairs of
displayed label and original configuration index, whether s.quit() was called,
the log of entries handed to Sshell::run, and the process outcome. -/
structure AppState where
  timer : TimerState
  items : List (String × Nat)
  quitted : Bool
  launched : List Sshell
  outcome : ProcOutcome
deriving DecidableEq

/-- const DEFAULT_SHELL_INDEX. -/
def DEFAULT_SHELL_INDEX : Nat := 0

/-- Nanoseconds per second. -/
def NANOS_PER_SEC : Nat := 1000000000

/-- const DEFAULT_TIMEOUT, three seconds, in nanoseconds. -/
def DEFAULT_TIMEOUT_NANOS : Nat := 3 * NANOS_PER_SEC

/-- The number shown in the countdown label: remaining.as_secs() + 1, where
Duration::as_secs truncates to whole seconds. -/
def displayedSeconds (nanos : Nat) : Nat := nanos / NANOS_PER_SEC + 1

/-- Ceiling of a nanosecond duration in whole seconds (the notion the spec uses). -/
def ceilSeconds (nanos : Nat) : Nat := (nanos + (NANOS_PER_SEC - 1)) / NANOS_PER_SEC

/-- Sshell::run: spawn the shell at expanded_path; on success the host exits
with code 0, on failure the expect panics.  Either way the process ends and the
entry is recorded as launched. -/
def Sshell.runShell (spawnOk : String → Bool) (sh : Sshell) (st : AppState) : AppState :=
  { st with launched := st.launched ++ [sh],
            outcome := if spawnOk sh.expanded_path then ProcOutcome.exited 0
                       else ProcOutcome.panicked }

/-- The item-building loop of fn sshells_select: walk the configured entries
with their indices, adding (name, index) for each entry whose expanded path
exists; fs models Path::exists on the expanded path. -/
def add_existing (fs : String → Bool) : Nat → List Sshell → List (String × Nat)
  | _, [] => []
  | i, sh :: rest =>
    if fs sh.expanded_path then (sh.name, i) :: add_existing fs (i + 1) rest
    else add_existing fs (i + 1) rest

/-- The items of the SelectView built by fn sshells_select. -/
def sshells_select_items (fs : String → Bool) (sshells : List Sshell) : List (String × Nat) :=
  add_existing fs 0 sshells

/-- fn set_shell_label: overwrite the label of the item at the given position of
the SelectView item list, a no-op when the position is out of range. -/
def set_shell_label (items : List (String × Nat)) (index : Nat) (label : String) :
    List (String × Nat) :=
  match items.get? index with
  | some (_, v) => items.set index (label, v)
  | none => items

/-- fn handle_timer_tick: nothing when the timer is inactive; on expiry
(now at or past end_time) deactivate, quit the UI and run the shell at
DEFAULT_SHELL_INDEX of the full configured list (a panic if that index is out
of bounds, as Rust indexing panics); otherwise refresh the countdown label at
position DEFAULT_SHELL_INDEX of the item list. -/
def handle_timer_tick (spawnOk : String → Bool) (sshells : List Sshell) (now : Nat)
    (st : AppState) : AppState :=
  if st.timer.active = false then st
  else if st.timer.end_time ≤ now then
    let st1 : AppState :=
      { st with timer := { st.timer with active := false }, quitted := true }
    match sshells.get? DEFAULT_SHELL_INDEX with
    | some sh => Sshell.runShell spawnOk sh st1
    | none => { st1 with outcome := ProcOutcome.panicked }
  else
    match sshells.get? DEFAULT_SHELL_INDEX with
    | some sh =>
      let label : String :=
        sh.name ++ " (" ++ toString (displayedSeconds (st.timer.end_time - now)) ++ ")"
      { st with items := set_shell_label st.items DEFAULT_SHELL_INDEX label }
    | none => { st with outcome := ProcOutcome.panicked }

/-- The on_select callback of fn sshells_select: on a highlight change, if the
timer is still active, deactivate it and revert the label at position
DEFAULT_SHELL_INDEX to the plain name of the default entry. -/
def on_select (sshells : List Sshell) (st : AppState) : AppState :=
  if st.timer.active = true then
    let st1 : AppState := { st with timer := { st.timer with active := false } }
    match sshells.get? DEFAULT_SHELL_INDEX with
    | some sh =>
      { st1 with items := set_shell_label st1.items DEFAULT_SHELL_INDEX sh.name }
    | none => { st1 with outcome := ProcOutcome.panicked }
  else st

/-- The on_submit callback of fn sshells_select: run the shell of the full
configured list at the original index stored in the confirmed item. -/
def on_submit (spawnOk : String → Bool) (sshells : List Sshell) (pos : Nat)
    (st : AppState) : AppState :=
  match st.items.get? pos with
  | some (_, idx) =>
    match sshells.get? idx with
    | some sh => Sshell.runShell spawnOk sh st
    | none => { st with outcome := ProcOutcome.panicked }
  | none => st

/-- UI events: a periodic refresh tick carrying the current instant, a highlight
change to a view position, a confirmation of a view position, and the quit key. -/
inductive Event where
  | tick (now : Nat)
  | select (pos : Nat)
  | submit (pos : Nat)
  | quitKey
deriving DecidableEq

/-- One event of the cursive loop.  After the process has ended or s.quit() was
called no further event is handled. -/
def step (spawnOk : String → Bool) (sshells : List Sshell) (st : AppState)
    (e : Event) : AppState :=
  if st.outcome ≠ ProcOutcome.running ∨ st.quitted = true then st
  else
    match e with
    | Event.tick now => handle_timer_tick spawnOk sshells now st
    | Event.select _ => on_select sshells st
    | Event.submit pos => on_submit spawnOk sshells pos st
    | Event.quitKey => { st with quitted := true }

/-- Run a sequence of UI events from a state. -/
def run_events (spawnOk : String → Bool) (sshells : List Sshell) (st : AppState)
    (es : List Event) : AppState :=
  List.foldl (step spawnOk sshells) st es

/-- What fn main does after read_config: print the informational message and
return (the process then exits with code 0), or start the TUI. -/
inductive MainAction where
  | reportNoShells
  | startUI
deriving DecidableEq

/-- The branch of fn main: the message-and-return path is taken exactly when the
configured list itself is empty; filtering by existence happens only later,
inside fn sshells_select. -/
def mainAction (sshells : List Sshell) : MainAction :=
  if sshells.isEmpty then MainAction.reportNoShells else MainAction.startUI

/-- fn setup_tui: initial UI state at a start instant — timer active with
end_time three seconds from start, items built by fn sshells_select, process
running.  Ignoring the callback returned by set_selection(0) means no on_select
fires at startup. -/
def init_state (fs : String → Bool) (sshells : List Sshell) (start : Nat) : AppState :=
  { timer := { end_time := start + DEFAULT_TIMEOUT_NANOS, active := true },
    items := sshells_select_items fs sshells,
    quitted := false, launched := [], outcome := ProcOutcome.running }

/-- An environment with no variable defined. -/
def envUndef : Env := fun _ => none

/-- A small concrete environment defining variables A and B. -/
def envAB : Env := fun n => if n = "A" then some "1" else if n = "B" then some "22" else none

/-- A filesystem (and spawn) model on which every path exists. -/
def fsTrue : String → Bool := fun _ => true

/-- A filesystem model on which no path exists. -/
def fsNone : String → Bool := fun _ => false

/-- A configured entry whose resolved path will be treated as missing. -/
def shMissing : Sshell :=
  { name := "wsl", path := "C:\\wsl.exe", args := [], expanded_path := "C:\\wsl.exe" }

/-- A concrete default entry. -/
def shA : Sshell :=
  { name := "pwsh", path := "%SystemRoot%\\pwsh.exe", args := [], expanded_path := "C:\\pwsh.exe" }

/-- A concrete non-default entry. -/
def shB : Sshell :=
  { name := "bash", path := "C:\\bash.exe", args := ["-l"], expanded_path := "C:\\bash.exe" }

/-- Initial UI state over the two concrete entries, both existing, started at instant 0. -/
def st0 : AppState := init_state fsTrue [shA, shB] 0

/-- Concrete state for the countdown-label boundary case: one second left exactly. -/
def stC2 : AppState :=
  { timer := { end_time := 2 * NANOS_PER_SEC, active := true },
    items := [("pwsh", 0)], quitted := false, launched := [], outcome := ProcOutcome.running }

/-- A state whose timer has already been cancelled. -/
def stInactive : AppState :=
  { timer := { end_time := DEFAULT_TIMEOUT_NANOS, active := false },
    items := [("pwsh", 0), ("bash", 1)], quitted := false, launched := [],
    outcome := ProcOutcome.running }

/-- A default entry whose resolved path is missing from the filesystem. -/
def sh0 : Sshell :=
  { name := "zsh", path := "C:\\zsh.exe", args := [], expanded_path := "C:\\zsh.exe" }

/-- A filesystem model on which everything except the path of sh0 exists
(also used as the spawn model: spawning the missing path fails). -/
def fs0 : String → Bool := fun p => if p = "C:\\zsh.exe" then false else true

/-- Initial UI state over a missing default entry followed by an existing entry. -/
def stX : AppState := init_state fs0 [sh0, shB] 0

/-! ## Lemmas about the path scanner -/

/-- Joining singleton lists gives back the original list. -/
theorem flattenSingletons (l : List Char) : (l.map (fun c => [c])).flatten = l := by
  induction l with
  | nil => rfl
  | cons c cs ih => simp [ih]

/-- Flattening the literal segments of a character list gives back the list. -/
theorem flattenLitMap (l : List Char) : (l.map (origSeg ∘ Seg.lit)).flatten = l := by
  induction l with
  | nil => rfl
  | cons c cs ih => simp [Function.comp, origSeg, ih]

/-- Pointwise equal functions give equal maps. -/
theorem map_eq_on {α β : Type} (f g : α → β) :
    ∀ l : List α, (∀ a ∈ l, f a = g a) → l.map f = l.map g := by
  intro l
  induction l with
  | nil => intro _; rfl
  | cons a as ih =>
    intro h
    simp [h a (List.mem_cons_self a as), ih (fun b hb => h b (List.mem_cons_of_mem a hb))]

/-- The scan decomposes the input faithfully: concatenating the original text of
all segments restores the scanned string (preceded by the pending candidate). -/
theorem segsAux_flat : ∀ (s : List Char) (m : Option (List Char)),
    ((segsAux m s).map origSeg).flatten = m.elim [] (fun acc => '%' :: acc) ++ s := by
  intro s
  induction s with
  | nil =>
    intro m
    cases m with
    | none => rfl
    | some acc =>
      show ((('%' :: acc).map Seg.lit).map origSeg).flatten = '%' :: acc ++ []
      rw [List.map_map]
      simpa using flattenLitMap ('%' :: acc)
  | cons c cs ih =>
    intro m
    cases m with
    | none =>
      by_cases hc : c = '%'
      · subst hc
        simpa [segsAux] using ih (some [])
      · simp [segsAux, hc, origSeg, ih none]
    | some acc =>
      by_cases hw : isWordChar c
      · have h := ih (some (acc ++ [c]))
        simp only [Option.elim] at h
        simp only [Option.elim]
        simp [segsAux, hw, h]
      · by_cases hc : c = '%'
        · subst hc
          by_cases ha : acc.isEmpty
          · have ha' : acc = [] := by
              cases acc with
              | nil => rfl
              | cons x xs => simp [List.isEmpty] at ha
            subst ha'
            have h := ih (some [])
            simp only [Option.elim] at h ⊢
            simp [segsAux, hw, origSeg, h]
          · have h := ih none
            simp only [Option.elim] at h ⊢
            simp [segsAux, hw, ha, origSeg, h]
        · have h := ih none
          simp only [Option.elim] at h ⊢
          simp [segsAux, hw, hc, h, origSeg, flattenLitMap]

/-- The scan of a whole string flattens back to the string itself. -/
theorem segs_join_orig (s : List Char) : ((segsAux none s).map origSeg).flatten = s := by
  simpa using segsAux_flat s none

/-- Token names and token segments correspond. -/
theorem tok_mem_tokensOf (s w : List Char) :
    w ∈ tokensOf s ↔ Seg.tok w ∈ segsAux none s := by
  unfold tokensOf
  rw [List.mem_filterMap]
  constructor
  · rintro ⟨sg, hsg, hval⟩
    cases sg with
    | lit c => simp at hval
    | tok w2 =>
      simp at hval
      subst hval
      exact hsg
  · intro h
    exact ⟨Seg.tok w, h, rfl⟩

/-- When every referenced variable is defined, substitution renders each segment. -/
theorem expandSegs_defined (env : Env) :
    ∀ segs : List Seg, (∀ w, Seg.tok w ∈ segs → (env (String.mk w)).isSome = true) →
      expandSegs env segs = some ((segs.map (rendSeg env)).flatten) := by
  intro segs
  induction segs with
  | nil => intro _; rfl
  | cons sg rest ih =>
    intro h
    cases sg with
    | lit c =>
      have hr := ih (fun w hw => h w (List.mem_cons_of_mem _ hw))
      simp [expandSegs, hr, rendSeg]
    | tok w =>
      have hw := h w (List.mem_cons_self _ _)
      obtain ⟨v, hv⟩ := Option.isSome_iff_exists.mp hw
      have hr := ih (fun w2 hw2 => h w2 (List.mem_cons_of_mem _ hw2))
      simp [expandSegs, hv, hr, rendSeg]

/-- A single undefined referenced variable makes the whole substitution fail. -/
theorem expandSegs_undef (env : Env) :
    ∀ (segs : List Seg) (w : List Char), Seg.tok w ∈ segs →
      env (String.mk w) = none → expandSegs env segs = none := by
  intro segs
  induction segs with
  | nil =>
    intro w hw _
    exact absurd hw (List.not_mem_nil _)
  | cons sg rest ih =>
    intro w hw henv
    rcases List.mem_cons.mp hw with heq | hmem
    · subst heq
      simp [expandSegs, henv]
    · cases sg with
      | lit c => simp [expandSegs, ih w hmem henv]
      | tok w2 =>
        cases hv : env (String.mk w2) with
        | none => simp [expandSegs, hv]
        | some v => simp [expandSegs, hv, ih w hmem henv]

/-! ## Claims about the path resolver -/

/-- Claim C3 (confirmed): for every input string containing a token whose named
variable is undefined, path resolution aborts (returns none, the model of the
expect panic) and never returns any string, partially substituted or otherwise. -/
theorem C3_confirmed (env : Env) (s w : List Char)
    (hw : w ∈ tokensOf s) (henv : env (String.mk w) = none) :
    expand_env_vars env s = none :=
  expandSegs_undef env (segsAux none s) w ((tok_mem_tokensOf s w).mp hw) henv

/-- Witness for C3 at a concrete input. -/
theorem C3_witness : expand_env_vars envUndef ("%HOME%/bin".data) = none :=
  C3_confirmed envUndef ("%HOME%/bin".data) ("HOME".data) (by decide) rfl

/-- Claim C4 (confirmed): resolution of a token-free string is the identity; with
every referenced variable defined, resolution replaces each token segment by its
variable value and keeps each literal segment, and the segment decomposition
flattens back to the original string, so all characters outside tokens are kept. -/
theorem C4_confirmed (env : Env) (s : List Char) :
    (tokensOf s = [] → expand_env_vars env s = some s) ∧
    ((∀ w ∈ tokensOf s, (env (String.mk w)).isSome = true) →
      expand_env_vars env s = some (((segsAux none s).map (rendSeg env)).flatten)) ∧
    ((segsAux none s).map origSeg).flatten = s := by
  refine ⟨?_, ?_, segs_join_orig s⟩
  · intro h
    have htoks : ∀ w, Seg.tok w ∈ segsAux none s → False := by
      intro w hw
      have hmem : w ∈ tokensOf s := (tok_mem_tokensOf s w).mpr hw
      rw [h] at hmem
      exact absurd hmem (List.not_mem_nil _)
    have hd := expandSegs_defined env (segsAux none s) (fun w hw => (htoks w hw).elim)
    show expandSegs env (segsAux none s) = some s
    rw [hd]
    congr 1
    have hmaps : (segsAux none s).map (rendSeg env) = (segsAux none s).map origSeg := by
      apply map_eq_on
      intro sg hsg
      cases sg with
      | lit c => rfl
      | tok w => exact (htoks w hsg).elim
    rw [hmaps]
    exact segs_join_orig s
  · intro h
    exact expandSegs_defined env (segsAux none s)
      (fun w hw => h w ((tok_mem_tokensOf s w).mpr hw))

/-- Witness for C4: a multi-token substitution and a token-free identity case. -/
theorem C4_witness :
    expand_env_vars envAB ("x%A%-%B%y".data) = some ("x1-22y".data) ∧
    expand_env_vars envAB ("plain/path".data) = some ("plain/path".data) := by
  constructor
  · exact ((C4_confirmed envAB ("x%A%-%B%y".data)).2.1 (by decide)).trans (by decide)
  · exact (C4_confirmed envAB ("plain/path".data)).1 (by decide)

/-! ## Lemmas about registry construction -/

/-- The item-building loop is the enumerate–filter–map of the configured list. -/
theorem add_existing_eq_enumFrom (fs : String → Bool) :
    ∀ (l : List Sshell) (n : Nat),
      add_existing fs n l
        = ((l.enumFrom n).filter (fun p => fs p.2.expanded_path)).map
            (fun p => (p.2.name, p.1)) := by
  intro l
  induction l with
  | nil => intro n; rfl
  | cons sh rest ih =>
    intro n
    by_cases h : fs sh.expanded_path
    · simp [add_existing, List.enumFrom, h, ih (n + 1)]
    · simp [add_existing, List.enumFrom, h, ih (n + 1)]

/-- The names column of the loop result is the filter of the configured entries. -/
theorem add_existing_names (fs : String → Bool) :
    ∀ (l : List Sshell) (n : Nat),
      (add_existing fs n l).map Prod.fst
        = (l.filter (fun sh => fs sh.expanded_path)).map Sshell.name := by
  intro l
  induction l with
  | nil => intro n; rfl
  | cons sh rest ih =>
    intro n
    by_cases h : fs sh.expanded_path
    · simp [add_existing, List.filter, h, ih (n + 1)]
    · simp [add_existing, List.filter, h, ih (n + 1)]

/-- Every index recorded by the loop is at least the starting index. -/
theorem add_existing_ge (fs : String → Bool) :
    ∀ (l : List Sshell) (n : Nat), ∀ pr ∈ add_existing fs n l, n ≤ pr.2 := by
  intro l
  induction l with
  | nil =>
    intro n pr hpr
    exact absurd hpr (List.not_mem_nil _)
  | cons sh rest ih =>
    intro n pr hpr
    by_cases h : fs sh.expanded_path
    · rw [add_existing, if_pos h] at hpr
      rcases List.mem_cons.mp hpr with heq | hmem
      · subst heq; exact Nat.le_refl n
      · exact Nat.le_trans (Nat.le_succ n) (ih (n + 1) pr hmem)
    · rw [add_existing, if_neg h] at hpr
      exact Nat.le_trans (Nat.le_succ n) (ih (n + 1) pr hpr)

/-- Claim C5 (confirmed): the built registry is exactly the enumeration of the
configured list filtered to existing entries, each kept with its name and its
original index; in particular the displayed names are the names of the existing
entries in their original relative order, with missing entries silently omitted. -/
theorem C5_confirmed (fs : String → Bool) (l : List Sshell) :
    sshells_select_items fs l
      = ((l.enum.filter (fun p => fs p.2.expanded_path)).map (fun p => (p.2.name, p.1))) ∧
    (sshells_select_items fs l).map Prod.fst
      = (l.filter (fun sh => fs sh.expanded_path)).map Sshell.name := by
  constructor
  · simpa [List.enum] using add_existing_eq_enumFrom fs l 0
  · simpa using add_existing_names fs l 0

/-! ## Lemmas about the UI event loop -/

/-- After s.quit() was called no event is handled. -/
theorem step_frozen_quit (spawnOk : String → Bool) (sshells : List Sshell)
    (st : AppState) (e : Event) (h : st.quitted = true) :
    step spawnOk sshells st e = st := by
  unfold step
  rw [if_pos (Or.inr h)]

/-- After the process has ended no event is handled. -/
theorem step_frozen_outcome (spawnOk : String → Bool) (sshells : List Sshell)
    (st : AppState) (e : Event) (h : st.outcome ≠ ProcOutcome.running) :
    step spawnOk sshells st e = st := by
  unfold step
  rw [if_pos (Or.inl h)]

/-- Running a shell never touches the timer. -/
theorem runShell_timer (spawnOk : String → Bool) (sh : Sshell) (st : AppState) :
    (Sshell.runShell spawnOk sh st).timer = st.timer := rfl

/-- Confirming an entry never touches the timer. -/
theorem on_submit_timer (spawnOk : String → Bool) (sshells : List Sshell) (pos : Nat)
    (st : AppState) : (on_submit spawnOk sshells pos st).timer = st.timer := by
  unfold on_submit
  split
  · split
    · rfl
    · rfl
  · rfl

/-- No handler of the system re-activates a deactivated timer. -/
theorem step_preserves_inactive (spawnOk : String → Bool) (sshells : List Sshell)
    (st : AppState) (e : Event) (h : st.timer.active = false) :
    (step spawnOk sshells st e).timer.active = false := by
  by_cases hf : st.outcome ≠ ProcOutcome.running ∨ st.quitted = true
  · unfold step
    rw [if_pos hf]
    exact h
  · unfold step
    rw [if_neg hf]
    cases e with
    | tick now =>
      show (handle_timer_tick spawnOk sshells now st).timer.active = false
      unfold handle_timer_tick
      rw [if_pos h]
      exact h
    | select pos =>
      show (on_select sshells st).timer.active = false
      unfold on_select
      rw [if_neg (by simp [h])]
      exact h
    | submit pos =>
      show (on_submit spawnOk sshells pos st).timer.active = false
      rw [on_submit_timer]
      exact h
    | quitKey => exact h

/-- Claim C6 (confirmed): over every sequence of UI events, once the timer flag
active is false it stays false: no handler sets it back to true. -/
theorem C6_confirmed (spawnOk : String → Bool) (sshells : List Sshell)
    (st : AppState) (es : List Event) (h : st.timer.active = false) :
    (run_events spawnOk sshells st es).timer.active = false := by
  induction es generalizing st with
  | nil => exact h
  | cons e rest ih =>
    exact ih (step spawnOk sshells st e) (step_preserves_inactive spawnOk sshells st e h)

/-- Witness for C6 on a concrete cancelled state and event sequence. -/
theorem C6_witness :
    (run_events fsTrue [shA, shB] stInactive
        [Event.tick 500000000, Event.select 1, Event.tick 9000000000]).timer.active = false :=
  C6_confirmed fsTrue [shA, shB] stInactive
    [Event.tick 500000000, Event.select 1, Event.tick 9000000000] rfl

/-- On a live state (process running, quit not requested) the step dispatches to
the matching handler. -/
theorem step_live (spawnOk : String → Bool) (sshells : List Sshell) (st : AppState)
    (e : Event) (hrun : st.outcome = ProcOutcome.running) (hq : st.quitted = false) :
    step spawnOk sshells st e
      = match e with
        | Event.tick now => handle_timer_tick spawnOk sshells now st
        | Event.select _ => on_select sshells st
        | Event.submit pos => on_submit spawnOk sshells pos st
        | Event.quitKey => { st with quitted := true } := by
  unfold step
  rw [if_neg (by simp [hrun, hq])]

/-- Claim C7 (confirmed): a highlight change while the timer is active cancels
the timer and reverts the label at the default position to the plain name of the
default entry; a further highlight change on the resulting cancelled state is a
complete no-op for the UI state. -/
theorem C7_confirmed (spawnOk : String → Bool) (sshells : List Sshell) (sh : Sshell)
    (st : AppState) (pos pos2 : Nat)
    (hrun : st.outcome = ProcOutcome.running) (hq : st.quitted = false)
    (hact : st.timer.active = true)
    (h0 : sshells.get? DEFAULT_SHELL_INDEX = some sh) :
    (step spawnOk sshells st (Event.select pos)).timer.active = false ∧
    (step spawnOk sshells st (Event.select pos)).items
      = set_shell_label st.items DEFAULT_SHELL_INDEX sh.name ∧
    step spawnOk sshells (step spawnOk sshells st (Event.select pos)) (Event.select pos2)
      = step spawnOk sshells st (Event.select pos) := by
  have hsel : step spawnOk sshells st (Event.select pos)
      = { st with timer := { st.timer with active := false },
                  items := set_shell_label st.items DEFAULT_SHELL_INDEX sh.name } := by
    rw [step_live spawnOk sshells st (Event.select pos) hrun hq]
    show on_select sshells st = _
    unfold on_select
    rw [if_pos hact]
    simp only [h0]
  refine ⟨by rw [hsel], by rw [hsel], ?_⟩
  rw [hsel]
  rw [step_live spawnOk sshells
      { st with timer := { st.timer with active := false },
                items := set_shell_label st.items DEFAULT_SHELL_INDEX sh.name }
      (Event.select pos2) hrun hq]
  show on_select sshells _ = _
  unfold on_select
  rw [if_neg (by simp)]

/-- Claim C8 (confirmed): a tick at or past the deadline while the timer is
active deactivates the timer, quits the UI and hands the default entry of the
full configured list to the launcher; afterwards the process has ended, so every
further event (in particular every further tick) leaves the state unchanged. -/
theorem C8_confirmed (spawnOk : String → Bool) (sshells : List Sshell) (sh : Sshell)
    (st : AppState) (now : Nat)
    (hrun : st.outcome = ProcOutcome.running) (hq : st.quitted = false)
    (hact : st.timer.active = true) (hdl : st.timer.end_time ≤ now)
    (h0 : sshells.get? DEFAULT_SHELL_INDEX = some sh) :
    (step spawnOk sshells st (Event.tick now)).timer.active = false ∧
    (step spawnOk sshells st (Event.tick now)).quitted = true ∧
    (step spawnOk sshells st (Event.tick now)).launched = st.launched ++ [sh] ∧
    ∀ e, step spawnOk sshells (step spawnOk sshells st (Event.tick now)) e
        = step spawnOk sshells st (Event.tick now) := by
  have htick : step spawnOk sshells st (Event.tick now)
      = Sshell.runShell spawnOk sh
          { st with timer := { st.timer with active := false }, quitted := true } := by
    rw [step_live spawnOk sshells st (Event.tick now) hrun hq]
    show handle_timer_tick spawnOk sshells now st = _
    unfold handle_timer_tick
    rw [if_neg (by simp [hact]), if_pos hdl]
    simp only [h0]
  refine ⟨by rw [htick]; rfl, by rw [htick]; rfl, by rw [htick]; rfl, ?_⟩
  intro e
  rw [htick]
  exact step_frozen_quit spawnOk sshells _ e rfl

/-- Claim C9 (confirmed): confirming the item at a view position hands exactly
the configured entry at that item's stored original index to the launcher (here
required to be a non-default index), the process ends at once, and every later
event (in particular every later tick) leaves the state unchanged. -/
theorem C9_confirmed (spawnOk : String → Bool) (sshells : List Sshell)
    (st : AppState) (pos : Nat) (lbl : String) (idx : Nat) (sh : Sshell)
    (hrun : st.outcome = ProcOutcome.running) (hq : st.quitted = false)
    (hitem : st.items.get? pos = some (lbl, idx))
    (hsh : sshells.get? idx = some sh)
    (_hnd : idx ≠ DEFAULT_SHELL_INDEX) :
    (step spawnOk sshells st (Event.submit pos)).launched = st.launched ++ [sh] ∧
    (step spawnOk sshells st (Event.submit pos)).outcome ≠ ProcOutcome.running ∧
    ∀ e, step spawnOk sshells (step spawnOk sshells st (Event.submit pos)) e
        = step spawnOk sshells st (Event.submit pos) := by
  have hsub : step spawnOk sshells st (Event.submit pos) = Sshell.runShell spawnOk sh st := by
    rw [step_live spawnOk sshells st (Event.submit pos) hrun hq]
    show on_submit spawnOk sshells pos st = _
    unfold on_submit
    simp only [hitem, hsh]
  have hout : (Sshell.runShell spawnOk sh st).outcome ≠ ProcOutcome.running := by
    cases hsp : spawnOk sh.expanded_path <;> simp [Sshell.runShell, hsp]
  refine ⟨by rw [hsub]; rfl, ?_, ?_⟩
  · rw [hsub]
    exact hout
  · intro e
    rw [hsub]
    exact step_frozen_outcome spawnOk sshells _ e hout

/-- Witness for C7 on the concrete two-entry registry. -/
theorem C7_witness :
    (step fsTrue [shA, shB] st0 (Event.select 1)).timer.active = false ∧
    (step fsTrue [shA, shB] st0 (Event.select 1)).items
      = set_shell_label st0.items DEFAULT_SHELL_INDEX shA.name ∧
    step fsTrue [shA, shB] (step fsTrue [shA, shB] st0 (Event.select 1)) (Event.select 0)
      = step fsTrue [shA, shB] st0 (Event.select 1) :=
  C7_confirmed fsTrue [shA, shB] shA st0 1 0 rfl rfl rfl rfl

/-- Witness for C8: expiry tick exactly at the deadline, then a later tick. -/
theorem C8_witness :
    (step fsTrue [shA, shB] st0 (Event.tick DEFAULT_TIMEOUT_NANOS)).timer.active = false ∧
    (step fsTrue [shA, shB] st0 (Event.tick DEFAULT_TIMEOUT_NANOS)).quitted = true ∧
    (step fsTrue [shA, shB] st0 (Event.tick DEFAULT_TIMEOUT_NANOS)).launched
      = st0.launched ++ [shA] ∧
    step fsTrue [shA, shB] (step fsTrue [shA, shB] st0 (Event.tick DEFAULT_TIMEOUT_NANOS))
        (Event.tick 4000000000)
      = step fsTrue [shA, shB] st0 (Event.tick DEFAULT_TIMEOUT_NANOS) := by
  have h := C8_confirmed fsTrue [shA, shB] shA st0 DEFAULT_TIMEOUT_NANOS
    rfl rfl rfl (by decide) rfl
  exact ⟨h.1, h.2.1, h.2.2.1, h.2.2.2 (Event.tick 4000000000)⟩

/-- Witness for C9: confirming the non-default entry at view position 1. -/
theorem C9_witness :
    (step fsTrue [shA, shB] st0 (Event.submit 1)).launched = st0.launched ++ [shB] ∧
    (step fsTrue [shA, shB] st0 (Event.submit 1)).outcome ≠ ProcOutcome.running ∧
    step fsTrue [shA, shB] (step fsTrue [shA, shB] st0 (Event.submit 1)) (Event.tick 100)
      = step fsTrue [shA, shB] st0 (Event.submit 1) := by
  have h := C9_confirmed fsTrue [shA, shB] st0 1 "bash" 1 shB
    rfl rfl (by decide) rfl (by decide)
  exact ⟨h.1, h.2.1, h.2.2 (Event.tick 100)⟩

/-- Claim C10 (confirmed): with a configured default entry whose resolved path
does not exist, the default is omitted from the displayed registry (no item
stores index 0); the countdown nevertheless runs: a non-expired tick writes the
countdown label at position 0 of the filtered item list, and an expired tick
hands the missing default entry of the full configured list to the launcher,
where the spawn fails and the process aborts with a panic. -/
theorem C10_confirmed (fs spawnOk : String → Bool) (shMiss : Sshell) (rest : List Sshell)
    (st : AppState) (now : Nat)
    (h0fs : fs shMiss.expanded_path = false)
    (h0spawn : spawnOk shMiss.expanded_path = false)
    (hitems : st.items = sshells_select_items fs (shMiss :: rest))
    (hrun : st.outcome = ProcOutcome.running) (hq : st.quitted = false)
    (hact : st.timer.active = true) :
    (∀ pr ∈ st.items, pr.2 ≠ DEFAULT_SHELL_INDEX) ∧
    (st.timer.end_time ≤ now →
      (step spawnOk (shMiss :: rest) st (Event.tick now)).launched
          = st.launched ++ [shMiss] ∧
      (step spawnOk (shMiss :: rest) st (Event.tick now)).outcome = ProcOutcome.panicked) ∧
    (now < st.timer.end_time →
      (step spawnOk (shMiss :: rest) st (Event.tick now)).items
        = set_shell_label st.items DEFAULT_SHELL_INDEX
            (shMiss.name ++ " (" ++ toString (displayedSeconds (st.timer.end_time - now)) ++ ")")) := by
  refine ⟨?_, ?_, ?_⟩
  · intro pr hpr
    rw [hitems] at hpr
    unfold sshells_select_items add_existing at hpr
    rw [if_neg (by simp [h0fs])] at hpr
    have h1 := add_existing_ge fs rest 1 pr hpr
    unfold DEFAULT_SHELL_INDEX
    omega
  · intro hdl
    have htick : step spawnOk (shMiss :: rest) st (Event.tick now)
        = Sshell.runShell spawnOk shMiss
            { st with timer := { st.timer with active := false }, quitted := true } := by
      rw [step_live spawnOk (shMiss :: rest) st (Event.tick now) hrun hq]
      show handle_timer_tick spawnOk (shMiss :: rest) now st = _
      unfold handle_timer_tick
      rw [if_neg (by simp [hact]), if_pos hdl]
      rfl
    constructor
    · rw [htick]
      rfl
    · rw [htick]
      simp [Sshell.runShell, h0spawn]
  · intro hlt
    rw [step_live spawnOk (shMiss :: rest) st (Event.tick now) hrun hq]
    show (handle_timer_tick spawnOk (shMiss :: rest) now st).items = _
    unfold handle_timer_tick
    rw [if_neg (by simp [hact]), if_neg (by omega)]
    rfl

/-- Witness for C10: missing default, existing second entry; an expired tick and
a separate non-expired tick. -/
theorem C10_witness :
    (∀ pr ∈ stX.items, pr.2 ≠ DEFAULT_SHELL_INDEX) ∧
    (step fs0 [sh0, shB] stX (Event.tick 3000000000)).launched = stX.launched ++ [sh0] ∧
    (step fs0 [sh0, shB] stX (Event.tick 3000000000)).outcome = ProcOutcome.panicked ∧
    (step fs0 [sh0, shB] stX (Event.tick 500000000)).items
      = set_shell_label stX.items DEFAULT_SHELL_INDEX
          (sh0.name ++ " (" ++ toString (displayedSeconds (stX.timer.end_time - 500000000)) ++ ")") := by
  have h1 := C10_confirmed fs0 fs0 sh0 [shB] stX 3000000000 rfl rfl rfl rfl rfl rfl
  have h2 := C10_confirmed fs0 fs0 sh0 [shB] stX 500000000 rfl rfl rfl rfl rfl rfl
  exact ⟨h1.1, (h1.2.1 (by decide)).1, (h1.2.1 (by decide)).2, h2.2.2 (by decide)⟩

/-- Truncation plus one agrees with the ceiling away from whole-second durations. -/
theorem displayed_eq_ceil (r : Nat) (h : r % NANOS_PER_SEC ≠ 0) :
    displayedSeconds r = ceilSeconds r := by
  unfold displayedSeconds ceilSeconds NANOS_PER_SEC at *
  omega

/-- Counterexample to claim C1 as stated: a one-entry configuration whose entry
fails the existence check gives an empty filtered registry, yet fn main still
starts the UI instead of reporting and exiting. -/
theorem C1_counterexample :
    sshells_select_items fsNone [shMissing] = [] ∧
    mainAction [shMissing] = MainAction.startUI := by
  constructor
  · rfl
  · rfl

/-- Claim C1 (amended): the informational no-shells message with a clean exit
happens exactly when the loaded, unfiltered configuration list is empty; a
nonempty configuration whose entries all fail the existence check still starts
the UI. -/
theorem C1_amended (sshells : List Sshell) :
    mainAction sshells = MainAction.reportNoShells ↔ sshells = [] := by
  cases sshells with
  | nil => simp [mainAction]
  | cons sh rest => simp [mainAction]

/-- Counterexample to claim C2 as stated: with exactly one second remaining (a
positive remaining duration) the tick writes the label with the number 2, while
the ceiling of the remaining duration is 1. -/
theorem C2_counterexample :
    (step fsTrue [shA] stC2 (Event.tick NANOS_PER_SEC)).items = [("pwsh (2)", 0)] ∧
    ceilSeconds (stC2.timer.end_time - NANOS_PER_SEC) = 1 ∧
    0 < stC2.timer.end_time - NANOS_PER_SEC := by
  refine ⟨by decide, by decide, by decide⟩

/-- Claim C2 (amended): the countdown label shows as_secs(remaining) plus one,
which equals the ceiling of the remaining duration whenever the remaining
duration is not an exact whole number of seconds; at exact whole seconds it
shows ceiling plus one. -/
theorem C2_amended (spawnOk : String → Bool) (sshells : List Sshell) (sh : Sshell)
    (st : AppState) (now : Nat)
    (hrun : st.outcome = ProcOutcome.running) (hq : st.quitted = false)
    (hact : st.timer.active = true) (hlt : now < st.timer.end_time)
    (h0 : sshells.get? DEFAULT_SHELL_INDEX = some sh)
    (hfrac : (st.timer.end_time - now) % NANOS_PER_SEC ≠ 0) :
    (step spawnOk sshells st (Event.tick now)).items
      = set_shell_label st.items DEFAULT_SHELL_INDEX
          (sh.name ++ " (" ++ toString (ceilSeconds (st.timer.end_time - now)) ++ ")") := by
  rw [step_live spawnOk sshells st (Event.tick now) hrun hq]
  show (handle_timer_tick spawnOk sshells now st).items = _
  unfold handle_timer_tick
  rw [if_neg (by simp [hact]), if_neg (by omega)]
  simp only [h0]
  rw [displayed_eq_ceil _ hfrac]

/-- Witness for the amended C2 with half a second remaining. -/
theorem C2_amended_witness :
    (step fsTrue [shA, shB] st0 (Event.tick 2500000000)).items
      = set_shell_label st0.items DEFAULT_SHELL_INDEX
          (shA.name ++ " (" ++ toString (ceilSeconds (st0.timer.end_time - 2500000000)) ++ ")") :=
  C2_amended fsTrue [shA, shB] shA st0 2500000000 rfl rfl rfl (by decide) rfl (by decide)
